import Mathlib

/-
Shallow embedding of the gocached persistence core (src/main.go).

The Go program keeps a `map[string][]string` database, an append-only WAL
file ("data.wal") of text lines, and a gob-encoded snapshot file
("data.dat").  We model:
  * the database as an association list `Db` with the extensional
    behaviour of a Go map (`dbSet`, `dbGet`, `dbDel` mirror
    `c.db[key] = value`, `c.db[key]`, `delete(c.db, key)`);
  * the two on-disk files as a `Disk` record: the WAL as its list of
    text lines and "data.dat" as an optional `DatFile` (a decodable gob
    payload plus any text lines sitting after the payload, which is what
    loadSnapshot's scanner reads);
  * gob encode/decode as exact on the entry list: the decoder rebuilds
    the map by inserting each transmitted entry (`gobDecodeInto`);
  * file-system side effects of saveSnapshot as an event trace
    (`FsEvent`), with Booleans selecting which I/O steps fail, so the
    ordering claims about truncate/rename can be stated.
String handling (strings.Fields, strings.ReplaceAll, strings.ToUpper
restricted to the ASCII commands the protocol uses) is implemented on
character lists so that everything reduces by `decide`/`rfl`.
-/

/-- In-memory database: Go's `map[string][]string`, as an association list. -/
abbrev Db := List (String × List String)

/-- Go `c.db[key] = value`: replace the binding if present, else add it. -/
def dbSet : Db → String → List String → Db
  | [], k, v => [(k, v)]
  | (k', v') :: rest, k, v =>
    if k' = k then (k, v) :: rest else (k', v') :: dbSet rest k v

/-- Go `c.db[key]` read: the bound value, or the zero value `[]` if absent. -/
def dbGet : Db → String → List String
  | [], _ => []
  | (k', v') :: rest, k => if k' = k then v' else dbGet rest k

/-- Go `delete(c.db, key)`: remove the binding for `key`. -/
def dbDel : Db → String → Db
  | [], _ => []
  | (k', v') :: rest, k =>
    if k' = k then dbDel rest k else (k', v') :: dbDel rest k

/-- A parsed command (struct RedisCommand).  `net.Conn` is modelled as an
opaque connection identifier; parse leaves it at its zero value `none`. -/
structure RedisCommand where
  command : String
  key : String
  value : List String
  conn : Option Nat
deriving Repr, DecidableEq

/-- The whitespace characters strings.Fields splits on (ASCII fragment of
unicode.IsSpace, enough for the line-oriented protocol). -/
def isSpaceChar (c : Char) : Bool :=
  c = ' ' || c = '\t' || c = '\n' || c = '\r' || c = '\x0b' || c = '\x0c'

/-- strings.ReplaceAll(query, "\r\n", " ") on the character list. -/
def replaceCRLF : List Char → List Char
  | [] => []
  | '\r' :: '\n' :: rest => ' ' :: replaceCRLF rest
  | c :: rest => c :: replaceCRLF rest

/-- strings.ReplaceAll(query, "\n", " ") on the character list. -/
def replaceLF : List Char → List Char
  | [] => []
  | '\n' :: rest => ' ' :: replaceLF rest
  | c :: rest => c :: replaceLF rest

/-- Worker for strings.Fields: `cur` is the current token, reversed. -/
def fieldsGo : List Char → List Char → List String
  | cur, [] => if cur = [] then [] else [String.mk cur.reverse]
  | cur, c :: rest =>
    if isSpaceChar c then
      if cur = [] then fieldsGo [] rest
      else String.mk cur.reverse :: fieldsGo [] rest
    else fieldsGo (c :: cur) rest

/-- strings.Fields: split around runs of whitespace, no empty tokens. -/
def strFields (cs : List Char) : List String := fieldsGo [] cs

/-- strings.ToUpper on one character (ASCII range, which covers every
command name the protocol recognises). -/
def upperChar (c : Char) : Char :=
  if 'a' ≤ c && c ≤ 'z' then Char.ofNat (c.toNat - 32) else c

/-- strings.ToUpper (ASCII fragment). -/
def strToUpper (s : String) : String := String.mk (s.toList.map upperChar)

/-- The token list parse works on: CR/LF and LF normalised to spaces,
then whitespace-tokenised (main.go lines 185-187). -/
def tokensOf (query : String) : List String :=
  strFields (replaceLF (replaceCRLF query.toList))

/-- RedisCommand.parse (main.go lines 184-223).  Returns `none` exactly
when the Go method returns a non-nil error, in which case the caller
discards the command. -/
def RedisCommand.parse (query : String) : Option RedisCommand :=
  match tokensOf query with
  | [] => none
  | a0 :: args1 =>
    let command := strToUpper a0
    if command = "PING" then
      some { command := command, key := "", value := [], conn := none }
    else if command = "GET" ∨ command = "DEL" ∨ command = "SUBSCRIBE" then
      match args1 with
      | k :: _ => some { command := command, key := k, value := [], conn := none }
      | [] => none
    else if command = "SET" then
      match args1 with
      | k :: v :: _ => some { command := command, key := k, value := [v], conn := none }
      | _ => none
    else if command = "HMSET" ∨ command = "PUBLISH" then
      match args1 with
      | k :: v :: rest => some { command := command, key := k, value := v :: rest, conn := none }
      | _ => none
    else none

/-- Contents of the snapshot file "data.dat": an optional decodable gob
payload (the transmitted entry list; `none` means the decoder fails) and
whatever newline-separated text lines follow the payload (what
loadSnapshot's scanner reads after gob decoding). -/
structure DatFile where
  payload : Option Db
  trailing : List String
deriving Repr, DecidableEq

/-- The two persistent files.  `wal` is the line list of "data.wal";
`dat = none` means "data.dat" does not exist. -/
structure Disk where
  wal : List String
  dat : Option DatFile
deriving Repr, DecidableEq

/-- The server state (struct Redis): the map, the pub/sub subscriber
table, and the files it owns. -/
structure Redis where
  db : Db
  subscribers : List (String × List (Option Nat))
  disk : Disk
deriving Repr, DecidableEq

/-- Store-level set (main.go lines 44-48). -/
def Redis.set (c : Redis) (key : String) (value : List String) : Redis :=
  { c with db := dbSet c.db key value }

/-- Store-level get (main.go lines 50-54). -/
def Redis.get (c : Redis) (key : String) : List String :=
  dbGet c.db key

/-- Store-level delete (main.go lines 56-60). -/
def Redis.del (c : Redis) (key : String) : Redis :=
  { c with db := dbDel c.db key }

/-- `subscribers[key] = append(subscribers[key], conn)` (main.go line 93). -/
def subAppend : List (String × List (Option Nat)) → String → Option Nat →
    List (String × List (Option Nat))
  | [], topic, conn => [(topic, [conn])]
  | (t, cs) :: rest, topic, conn =>
    if t = topic then (t, cs ++ [conn]) :: rest
    else (t, cs) :: subAppend rest topic conn

/-- The WAL line for a command: `fmt.Sprintf("%s %s %s\n", ...)` with the
trailing newline left implicit in the line list (main.go line 107). -/
def walEntry (cmd : RedisCommand) : String :=
  cmd.command ++ " " ++ cmd.key ++ " " ++ String.intercalate " " cmd.value

/-- appendToWAL (main.go lines 104-109): append one line to "data.wal". -/
def Redis.appendToWAL (c : Redis) (cmd : RedisCommand) : Redis :=
  { c with disk := { c.disk with wal := c.disk.wal ++ [walEntry cmd] } }

/-- The mutating commands that are logged (main.go line 75). -/
def writeCommands : List String := ["SET", "HMSET", "DEL"]

/-- Operation (main.go lines 74-102): append to the WAL when enabled and
the command mutates, then dispatch on the command tag.  The `PUBLISH`
fan-out touches only subscriber connections, never the state. -/
def Redis.Operation (c0 : Redis) (cmd : RedisCommand) (walEnabled : Bool) :
    Redis × Except String String :=
  let c := if walEnabled && writeCommands.contains cmd.command
           then c0.appendToWAL cmd else c0
  if cmd.command = "PING" then (c, Except.ok "PONG")
  else if cmd.command = "GET" then
    (c, Except.ok (String.intercalate " " (c.get cmd.key)))
  else if cmd.command = "SET" ∨ cmd.command = "HMSET" then
    (c.set cmd.key cmd.value, Except.ok "OK")
  else if cmd.command = "DEL" then (c.del cmd.key, Except.ok "OK")
  else if cmd.command = "SUBSCRIBE" then
    ({ c with subscribers := subAppend c.subscribers cmd.key cmd.conn },
     Except.ok ("Subscribed to " ++ cmd.key))
  else if cmd.command = "PUBLISH" then
    (c, Except.ok ("Message published to " ++ cmd.key))
  else (c, Except.error "invalid Command")

/-- Apply a list of commands through Operation, keeping the state. -/
def applyAll (c : Redis) (cmds : List RedisCommand) (walEnabled : Bool) : Redis :=
  cmds.foldl (fun s cmd => (s.Operation cmd walEnabled).1) c

/-- The replay loop of loadSnapshot (main.go lines 159-170): parse each
line; well-formed lines are dispatched with walEnabled=false, malformed
lines are skipped. -/
def replayLines (c : Redis) (lines : List String) : Redis :=
  lines.foldl (fun s line =>
    match RedisCommand.parse line with
    | some cmd => (s.Operation cmd false).1
    | none => s) c

/-- gob decoding of a transmitted entry list into a fresh map: the
decoder inserts each entry in transmission order. -/
def gobDecodeInto (entries : Db) : Db :=
  entries.foldl (fun acc kv => dbSet acc kv.1 kv.2) []

/-- The canonical snapshot path: "data.dat" (main.go lines 128, 141). -/
def snapshotPath : String := "data.dat"

/-- The path saveSnapshot opens for writing its snapshot before the
rename: main.go line 115 opens "data.dat" itself. -/
def tempSnapshotPath : String := "data.dat"

/-- File-system steps taken by saveSnapshot, with the success of each. -/
inductive FsEvent where
  | openWrite (path : String) (ok : Bool)
  | encode (path : String) (ok : Bool)
  | rename (src dst : String) (ok : Bool)
  | walTruncate
  | walSeek
  | walSync
deriving Repr, DecidableEq

/-- saveSnapshot (main.go lines 111-138), with the three fallible I/O
steps (open, gob encode, rename) selected by Booleans.  The file is
opened at `tempSnapshotPath` with O_CREATE|O_WRONLY and no O_TRUNC, so
the encoder writes over the canonical file in place: a failed encode
leaves an undecodable payload there, and a successful encode has already
installed the new payload before the rename (which renames the canonical
path onto itself).  main.go logs a rename failure but does not return,
so the WAL truncate/seek/sync run regardless of the rename's outcome. -/
def Redis.saveSnapshot (c : Redis) (openErr encodeErr renameErr : Bool) :
    Redis × List FsEvent :=
  if openErr then (c, [FsEvent.openWrite tempSnapshotPath false])
  else if encodeErr then
    ({ c with disk := { c.disk with dat := some { payload := none, trailing := [] } } },
     [FsEvent.openWrite tempSnapshotPath true, FsEvent.encode tempSnapshotPath false])
  else
    ({ c with disk := { wal := [], dat := some { payload := some c.db, trailing := [] } } },
     [FsEvent.openWrite tempSnapshotPath true, FsEvent.encode tempSnapshotPath true,
      FsEvent.rename tempSnapshotPath snapshotPath !renameErr,
      FsEvent.walTruncate, FsEvent.walSeek, FsEvent.walSync])

/-- loadSnapshot (main.go lines 140-175): open "data.dat" (absence means
return with the store untouched), reset the map, gob-decode the payload
into it (a decode failure leaves the freshly reset empty map), then scan
the same file for the text lines after the payload and replay them.
Note that "data.wal" is never read here. -/
def Redis.loadSnapshot (c : Redis) : Redis :=
  match c.disk.dat with
  | none => c
  | some file =>
    match file.payload with
    | none => { c with db := [] }
    | some entries =>
      replayLines { c with db := gobDecodeInto entries } file.trailing

/-- NewRedisServer (main.go lines 25-35) restarted over an existing disk:
fresh map and subscriber table, "data.wal" opened in append mode (its
contents are preserved, never read), then loadSnapshot. -/
def NewRedisServer (d : Disk) : Redis :=
  Redis.loadSnapshot { db := [], subscribers := [], disk := d }

/-- A server started over an empty disk: neither file has content. -/
def freshRedis : Redis :=
  NewRedisServer { wal := [], dat := none }

/-! ### Lemmas about the map operations -/

theorem dbGet_dbSet (d : Db) (k : String) (v : List String) (k' : String) :
    dbGet (dbSet d k v) k' = if k = k' then v else dbGet d k' := by
  induction d with
  | nil => simp [dbSet, dbGet]
  | cons hd tl ih =>
    obtain ⟨k0, v0⟩ := hd
    by_cases h0 : k0 = k
    · subst h0
      by_cases hk : k0 = k' <;> simp [dbSet, dbGet, hk]
    · by_cases h1 : k0 = k' <;> by_cases hk : k = k' <;>
        simp_all [dbSet, dbGet]

theorem dbGet_dbDel (d : Db) (k : String) (k' : String) :
    dbGet (dbDel d k) k' = if k = k' then [] else dbGet d k' := by
  induction d with
  | nil => simp [dbDel, dbGet]
  | cons hd tl ih =>
    obtain ⟨k0, v0⟩ := hd
    by_cases h0 : k0 = k
    · subst h0
      by_cases hk : k0 = k' <;> simp_all [dbDel, dbGet]
    · by_cases h1 : k0 = k' <;> by_cases hk : k = k' <;>
        simp_all [dbDel, dbGet]

theorem dbSet_append_of_not_mem (acc : Db) (k : String) (v : List String)
    (h : k ∉ acc.map Prod.fst) : dbSet acc k v = acc ++ [(k, v)] := by
  induction acc with
  | nil => rfl
  | cons hd tl ih =>
    obtain ⟨k0, v0⟩ := hd
    simp only [List.map_cons, List.mem_cons, not_or] at h
    have h0 : ¬k0 = k := fun hc => h.1 hc.symm
    simp [dbSet, h0, ih h.2]

/-! ### What Operation does to each component of the state -/

theorem appendToWAL_db (c : Redis) (cmd : RedisCommand) :
    (c.appendToWAL cmd).db = c.db := rfl

theorem Operation_db (c : Redis) (cmd : RedisCommand) (w : Bool) :
    ((c.Operation cmd w).1).db =
      if cmd.command = "SET" ∨ cmd.command = "HMSET" then dbSet c.db cmd.key cmd.value
      else if cmd.command = "DEL" then dbDel c.db cmd.key
      else c.db := by
  simp only [Redis.Operation]
  split_ifs <;>
    simp_all [Redis.appendToWAL, Redis.set, Redis.del]

theorem Operation_GET (c : Redis) (k : String) (w : Bool) :
    c.Operation { command := "GET", key := k, value := [], conn := none } w
      = (c, Except.ok (String.intercalate " " (c.get k))) := by
  cases w <;> rfl

/-! ### The last write on a key decides what a read returns -/

/-- The claim-side read-back value: the value carried by the most recent
SET/HMSET on `k` in the sequence, `some []` when the most recent write
operation on `k` is a DEL, and `none` when no write operation touches `k`. -/
def lastWriteOpt : List RedisCommand → String → Option (List String)
  | [], _ => none
  | cmd :: rest, k =>
    match lastWriteOpt rest k with
    | some v => some v
    | none =>
      if cmd.key = k ∧ (cmd.command = "SET" ∨ cmd.command = "HMSET") then some cmd.value
      else if cmd.key = k ∧ cmd.command = "DEL" then some []
      else none

/-- The value a GET of `k` must show after the sequence, per the claim:
the most recent SET/HMSET value, or `[]` after a DEL or when `k` was
never written. -/
def specLastWrite (cmds : List RedisCommand) (k : String) : List String :=
  (lastWriteOpt cmds k).getD []

theorem applyAll_cons (c : Redis) (cmd : RedisCommand) (rest : List RedisCommand) (w : Bool) :
    applyAll c (cmd :: rest) w = applyAll ((c.Operation cmd w).1) rest w := rfl

theorem dbGet_applyAll (cmds : List RedisCommand) :
    ∀ (c : Redis) (w : Bool) (k : String),
      dbGet (applyAll c cmds w).db k = (lastWriteOpt cmds k).getD (dbGet c.db k) := by
  induction cmds with
  | nil => intro c w k; rfl
  | cons cmd rest ih =>
    intro c w k
    rw [applyAll_cons, ih]
    cases hr : lastWriteOpt rest k with
    | some v => simp [lastWriteOpt, hr]
    | none =>
      simp only [lastWriteOpt, hr]
      rw [Operation_db]
      by_cases h1 : cmd.command = "SET" ∨ cmd.command = "HMSET"
      · by_cases hk : cmd.key = k <;> simp [h1, hk, dbGet_dbSet]
      · by_cases h2 : cmd.command = "DEL"
        · by_cases hk : cmd.key = k <;> simp [h1, h2, hk, dbGet_dbDel]
        · simp [h1, h2]

/-! ### Decoding a snapshot reproduces the entry list -/

theorem foldl_dbSet_eq_append (d : Db) :
    ∀ acc : Db, (d.map Prod.fst).Nodup →
      (∀ k ∈ d.map Prod.fst, k ∉ acc.map Prod.fst) →
      d.foldl (fun a kv => dbSet a kv.1 kv.2) acc = acc ++ d := by
  induction d with
  | nil => intro acc _ _; simp
  | cons hd tl ih =>
    intro acc hnd hdisj
    obtain ⟨k0, v0⟩ := hd
    rw [List.foldl_cons]
    show List.foldl (fun a kv => dbSet a kv.1 kv.2) (dbSet acc k0 v0) tl = acc ++ (k0, v0) :: tl
    rw [dbSet_append_of_not_mem acc k0 v0 (hdisj k0 (by simp))]
    rw [ih (acc ++ [(k0, v0)]) (List.Nodup.of_cons hnd) ?_]
    · simp
    · intro k hk
      simp only [List.map_append, List.mem_append, List.map_cons, List.map_nil,
        List.mem_singleton, not_or]
      refine ⟨hdisj k (by simp [hk]), ?_⟩
      intro hkk
      subst hkk
      exact (List.nodup_cons.mp (by simpa using hnd)).1 hk

theorem gobDecodeInto_eq_self (d : Db) (h : (d.map Prod.fst).Nodup) :
    gobDecodeInto d = d := by
  unfold gobDecodeInto
  rw [foldl_dbSet_eq_append d [] h (by simp)]
  simp

/-! ### Replay through the recovery path is replay through Operation -/

theorem replayLines_eq_applyAll (lines : List String) :
    ∀ c : Redis,
      replayLines c lines = applyAll c (lines.filterMap RedisCommand.parse) false := by
  induction lines with
  | nil => intro c; rfl
  | cons l rest ih =>
    intro c
    show (List.foldl _ _ (l :: rest) : Redis) = _
    rw [List.foldl_cons, List.filterMap_cons]
    cases hp : RedisCommand.parse l with
    | none => simpa [hp] using ih c
    | some cmd => simpa [hp, applyAll_cons] using ih ((c.Operation cmd false).1)

/-! ### The claims -/

/-- C1: the claim says a restart rebuilds the store from the WAL, but the
code never reads "data.wal": loadSnapshot only opens "data.dat" and, with
no snapshot present, recovery yields an empty store.  Here one logged and
applied `SET NAME GOCACHED` sits in the WAL (first conjunct) and in the
directly built store (second conjunct), yet the restarted server's
mapping is empty (third conjunct). -/
theorem C1_recovery_drops_wal :
    (applyAll freshRedis
        [{ command := "SET", key := "NAME", value := ["GOCACHED"], conn := none }]
        true).disk.wal = ["SET NAME GOCACHED"] ∧
    (applyAll freshRedis
        [{ command := "SET", key := "NAME", value := ["GOCACHED"], conn := none }]
        true).db = [("NAME", ["GOCACHED"])] ∧
    (NewRedisServer
        (applyAll freshRedis
          [{ command := "SET", key := "NAME", value := ["GOCACHED"], conn := none }]
          true).disk).db = [] := by
  decide

/-- C2: the claim says the snapshot is written to a temporary path
distinct from the canonical one and committed by a rename; in the code
the "temp" file is opened at the canonical path itself, every write
event of a successful saveSnapshot targets "data.dat" directly, and the
rename is a self-rename of "data.dat" onto "data.dat". -/
theorem C2_snapshot_written_in_place :
    tempSnapshotPath = snapshotPath ∧
    (Redis.saveSnapshot
        { db := [("NAME", ["GOCACHED"])], subscribers := [],
          disk := { wal := [], dat := none } }
        false false false).2
      = [FsEvent.openWrite snapshotPath true, FsEvent.encode snapshotPath true,
         FsEvent.rename snapshotPath snapshotPath true,
         FsEvent.walTruncate, FsEvent.walSeek, FsEvent.walSync] := by
  decide

/-- C3: the claim says the WAL is never truncated when the rename step
failed; in main.go a rename failure is only logged, so the execution in
which the rename reports failure still truncates, seeks and syncs the
WAL, and the WAL contents are gone afterwards. -/
theorem C3_truncate_despite_failed_rename :
    (Redis.saveSnapshot
        { db := [("NAME", ["GOCACHED"])], subscribers := [],
          disk := { wal := ["SET NAME GOCACHED"], dat := none } }
        false false true).2
      = [FsEvent.openWrite tempSnapshotPath true, FsEvent.encode tempSnapshotPath true,
         FsEvent.rename tempSnapshotPath snapshotPath false,
         FsEvent.walTruncate, FsEvent.walSeek, FsEvent.walSync] ∧
    (Redis.saveSnapshot
        { db := [("NAME", ["GOCACHED"])], subscribers := [],
          disk := { wal := ["SET NAME GOCACHED"], dat := none } }
        false false true).1.disk.wal = [] := by
  decide

/-- C4: snapshot round-trip.  For every store mapping (an association
list with no duplicate keys), a successful saveSnapshot followed by a
restart that loads the snapshot into a fresh store reproduces the
original mapping exactly: same keys, same ordered value lists. -/
theorem C4_snapshot_roundtrip (d : Db) (h : (d.map Prod.fst).Nodup) :
    (NewRedisServer
        (Redis.saveSnapshot
          { db := d, subscribers := [], disk := { wal := [], dat := none } }
          false false false).1.disk).db = d := by
  show gobDecodeInto d = d
  exact gobDecodeInto_eq_self d h

theorem C4_snapshot_roundtrip_witness :
    (([("NAME", ["GOCACHED"]), ("PERSON", ["NAME", "RAJ", "SURNAME", "PATEL"])] :
        Db).map Prod.fst).Nodup ∧
    (NewRedisServer
        (Redis.saveSnapshot
          { db := [("NAME", ["GOCACHED"]), ("PERSON", ["NAME", "RAJ", "SURNAME", "PATEL"])],
            subscribers := [], disk := { wal := [], dat := none } }
          false false false).1.disk).db
      = [("NAME", ["GOCACHED"]), ("PERSON", ["NAME", "RAJ", "SURNAME", "PATEL"])] :=
  ⟨by decide, C4_snapshot_roundtrip
    [("NAME", ["GOCACHED"]), ("PERSON", ["NAME", "RAJ", "SURNAME", "PATEL"])] (by decide)⟩

/-- A line that parses to one of the logged mutating commands. -/
def wellFormedWriteLine (l : String) : Bool :=
  match RedisCommand.parse l with
  | some cmd => writeCommands.contains cmd.command
  | none => false

/-- C5: replay idempotence.  Replaying a sequence of well-formed
SET/HMSET/DEL lines twice against a fresh store through the recovery
replay path (parse, then Operation with walEnabled=false) leaves every
key bound exactly as after replaying the sequence once. -/
theorem C5_replay_idempotent (lines : List String)
    (h : lines.all wellFormedWriteLine = true) (k : String) :
    dbGet (replayLines (replayLines freshRedis lines) lines).db k
      = dbGet (replayLines freshRedis lines).db k := by
  rw [replayLines_eq_applyAll, replayLines_eq_applyAll, dbGet_applyAll, dbGet_applyAll]
  cases lastWriteOpt (lines.filterMap RedisCommand.parse) k <;> simp

theorem C5_replay_idempotent_witness :
    (["SET NAME GOCACHED", "HMSET PERSON NAME RAJ", "DEL NAME"].all
        wellFormedWriteLine = true) ∧
    dbGet (replayLines
        (replayLines freshRedis ["SET NAME GOCACHED", "HMSET PERSON NAME RAJ", "DEL NAME"])
        ["SET NAME GOCACHED", "HMSET PERSON NAME RAJ", "DEL NAME"]).db "NAME"
      = dbGet (replayLines freshRedis
          ["SET NAME GOCACHED", "HMSET PERSON NAME RAJ", "DEL NAME"]).db "NAME" :=
  ⟨by decide, C5_replay_idempotent
    ["SET NAME GOCACHED", "HMSET PERSON NAME RAJ", "DEL NAME"] (by decide) "NAME"⟩

/-- C6: last-writer-wins reads.  After any sequence of SET/HMSET/DEL
commands on a fresh store, the map binds `k` to the value of the most
recent SET/HMSET on `k` (empty after a DEL or if `k` was never written),
a GET dispatched through Operation answers exactly that value joined
with spaces, and the GET succeeds and leaves the state unchanged. -/
theorem C6_last_writer_wins (ops : List RedisCommand)
    (h : ops.all (fun c => writeCommands.contains c.command) = true) (k : String) :
    dbGet (applyAll freshRedis ops true).db k = specLastWrite ops k ∧
    ((applyAll freshRedis ops true).Operation
        { command := "GET", key := k, value := [], conn := none } true).2
      = Except.ok (String.intercalate " " (specLastWrite ops k)) ∧
    ((applyAll freshRedis ops true).Operation
        { command := "GET", key := k, value := [], conn := none } true).1
      = applyAll freshRedis ops true := by
  have hdb : dbGet (applyAll freshRedis ops true).db k = specLastWrite ops k := by
    rw [dbGet_applyAll]; rfl
  refine ⟨hdb, ?_, ?_⟩
  · rw [Operation_GET]
    show Except.ok (String.intercalate " " (dbGet (applyAll freshRedis ops true).db k)) = _
    rw [hdb]
  · rw [Operation_GET]

theorem C6_last_writer_wins_witness :
    ([{ command := "SET", key := "NAME", value := ["GOCACHED"], conn := none },
      { command := "HMSET", key := "PERSON",
        value := ["NAME", "RAJ", "SURNAME", "PATEL"], conn := none },
      { command := "DEL", key := "NAME", value := [], conn := none }].all
        (fun c : RedisCommand => writeCommands.contains c.command) = true) ∧
    (dbGet (applyAll freshRedis
        [{ command := "SET", key := "NAME", value := ["GOCACHED"], conn := none },
         { command := "HMSET", key := "PERSON",
           value := ["NAME", "RAJ", "SURNAME", "PATEL"], conn := none },
         { command := "DEL", key := "NAME", value := [], conn := none }] true).db "NAME"
      = specLastWrite
          [{ command := "SET", key := "NAME", value := ["GOCACHED"], conn := none },
           { command := "HMSET", key := "PERSON",
             value := ["NAME", "RAJ", "SURNAME", "PATEL"], conn := none },
           { command := "DEL", key := "NAME", value := [], conn := none }] "NAME") :=
  ⟨by decide,
   (C6_last_writer_wins
      [{ command := "SET", key := "NAME", value := ["GOCACHED"], conn := none },
       { command := "HMSET", key := "PERSON",
         value := ["NAME", "RAJ", "SURNAME", "PATEL"], conn := none },
       { command := "DEL", key := "NAME", value := [], conn := none }]
      (by decide) "NAME").1⟩

/-- The command tags Operation dispatches on (main.go lines 80-99). -/
def recognizedCommands : List String :=
  ["PING", "GET", "SET", "HMSET", "DEL", "SUBSCRIBE", "PUBLISH"]

/-- C7: arity validation.  A line whose (upper-cased) command token is
SET fails to parse when it carries fewer than three whitespace-separated
tokens, and likewise for HMSET; in both cases no command is produced. -/
theorem C7_write_arity (q : String) :
    (strToUpper ((tokensOf q).headD "") = "SET" → (tokensOf q).length < 3 →
      RedisCommand.parse q = none) ∧
    (strToUpper ((tokensOf q).headD "") = "HMSET" → (tokensOf q).length < 3 →
      RedisCommand.parse q = none) := by
  rcases htk : tokensOf q with _ | ⟨a0, _ | ⟨a1, _ | ⟨a2, rest⟩⟩⟩
  · exact ⟨fun _ _ => by simp [RedisCommand.parse, htk],
           fun _ _ => by simp [RedisCommand.parse, htk]⟩
  · constructor <;>
      · intro hup _
        simp only [htk, List.headD] at hup
        simp [RedisCommand.parse, htk, hup]
  · constructor <;>
      · intro hup _
        simp only [htk, List.headD] at hup
        simp [RedisCommand.parse, htk, hup]
  · constructor <;>
      · intro _ hlen
        simp only [List.length_cons] at hlen
        omega

theorem C7_write_arity_witness :
    (strToUpper ((tokensOf "SET K").headD "") = "SET" ∧ (tokensOf "SET K").length < 3 ∧
      RedisCommand.parse "SET K" = none) ∧
    (strToUpper ((tokensOf "HMSET K").headD "") = "HMSET" ∧
      (tokensOf "HMSET K").length < 3 ∧ RedisCommand.parse "HMSET K" = none) :=
  ⟨⟨by decide, by decide, (C7_write_arity "SET K").1 (by decide) (by decide)⟩,
   ⟨by decide, by decide, (C7_write_arity "HMSET K").2 (by decide) (by decide)⟩⟩

/-- C8: unknown-command atomicity.  A command whose tag is not among the
dispatched tags makes Operation return the invalid-command error with
the state — map, subscriber table, and WAL — exactly as before, for any
value of walEnabled. -/
theorem C8_unknown_command_no_effect (c : Redis) (cmd : RedisCommand) (walEnabled : Bool)
    (h : recognizedCommands.contains cmd.command = false) :
    c.Operation cmd walEnabled = (c, Except.error "invalid Command") := by
  have hping : cmd.command ≠ "PING" := fun hc => by
    rw [hc] at h; exact absurd h (by decide)
  have hget : cmd.command ≠ "GET" := fun hc => by
    rw [hc] at h; exact absurd h (by decide)
  have hset : cmd.command ≠ "SET" := fun hc => by
    rw [hc] at h; exact absurd h (by decide)
  have hhm : cmd.command ≠ "HMSET" := fun hc => by
    rw [hc] at h; exact absurd h (by decide)
  have hdel : cmd.command ≠ "DEL" := fun hc => by
    rw [hc] at h; exact absurd h (by decide)
  have hsub : cmd.command ≠ "SUBSCRIBE" := fun hc => by
    rw [hc] at h; exact absurd h (by decide)
  have hpub : cmd.command ≠ "PUBLISH" := fun hc => by
    rw [hc] at h; exact absurd h (by decide)
  have hmem : cmd.command ∉ writeCommands := by
    simp [writeCommands, hset, hhm, hdel]
  simp [Redis.Operation, hmem, hping, hget, hset, hhm, hdel, hsub, hpub]

theorem C8_unknown_command_no_effect_witness :
    recognizedCommands.contains "FOO" = false ∧
    freshRedis.Operation { command := "FOO", key := "K", value := ["V"], conn := none } true
      = (freshRedis, Except.error "invalid Command") :=
  ⟨by decide,
   C8_unknown_command_no_effect freshRedis
     { command := "FOO", key := "K", value := ["V"], conn := none } true (by decide)⟩

/-- C9: frame property.  set and del touch at most the entry of their
key — every other key reads back unchanged — and a GET dispatched
through Operation returns the whole state unchanged. -/
theorem C9_frame_property (c : Redis) (k : String) (v : List String) (k' : String)
    (walEnabled : Bool) (h : k' ≠ k) :
    (c.set k v).get k' = c.get k' ∧
    (c.del k).get k' = c.get k' ∧
    (c.Operation { command := "GET", key := k, value := [], conn := none } walEnabled).1
      = c := by
  refine ⟨?_, ?_, ?_⟩
  · show dbGet (dbSet c.db k v) k' = dbGet c.db k'
    rw [dbGet_dbSet, if_neg (fun hc : k = k' => h hc.symm)]
  · show dbGet (dbDel c.db k) k' = dbGet c.db k'
    rw [dbGet_dbDel, if_neg (fun hc : k = k' => h hc.symm)]
  · rw [Operation_GET]

theorem C9_frame_property_witness :
    ("PERSON" : String) ≠ "NAME" ∧
    (({ db := [("PERSON", ["RAJ"])], subscribers := [],
        disk := { wal := [], dat := none } } : Redis).set "NAME" ["GOCACHED"]).get "PERSON"
      = ({ db := [("PERSON", ["RAJ"])], subscribers := [],
           disk := { wal := [], dat := none } } : Redis).get "PERSON" ∧
    (({ db := [("PERSON", ["RAJ"])], subscribers := [],
        disk := { wal := [], dat := none } } : Redis).del "NAME").get "PERSON"
      = ({ db := [("PERSON", ["RAJ"])], subscribers := [],
           disk := { wal := [], dat := none } } : Redis).get "PERSON" ∧
    (({ db := [("PERSON", ["RAJ"])], subscribers := [],
        disk := { wal := [], dat := none } } : Redis).Operation
        { command := "GET", key := "NAME", value := [], conn := none } true).1
      = { db := [("PERSON", ["RAJ"])], subscribers := [],
          disk := { wal := [], dat := none } } :=
  ⟨by decide,
   C9_frame_property
     { db := [("PERSON", ["RAJ"])], subscribers := [], disk := { wal := [], dat := none } }
     "NAME" ["GOCACHED"] "PERSON" true (by decide)⟩

/-- C10: implicit SET truncation.  A line tokenising to SET with a key
and at least two further tokens parses successfully to a command whose
value is exactly the one-element list holding the first of them; the
later tokens are dropped, so after dispatching the parsed command the
key reads back as just that single value. -/
theorem C10_set_extra_tokens (q t0 t1 t2 t3 : String) (rest : List String)
    (htk : tokensOf q = t0 :: t1 :: t2 :: t3 :: rest)
    (hup : strToUpper t0 = "SET") (c : Redis) (walEnabled : Bool) :
    RedisCommand.parse q
      = some { command := "SET", key := t1, value := [t2], conn := none } ∧
    ((c.Operation { command := "SET", key := t1, value := [t2], conn := none }
        walEnabled).1).get t1 = [t2] := by
  constructor
  · simp [RedisCommand.parse, htk, hup]
  · show dbGet ((c.Operation _ walEnabled).1).db t1 = [t2]
    rw [Operation_db]
    simp [dbGet_dbSet]

theorem C10_set_extra_tokens_witness :
    tokensOf "SET K A B" = "SET" :: "K" :: "A" :: "B" :: [] ∧
    strToUpper "SET" = "SET" ∧
    RedisCommand.parse "SET K A B"
      = some { command := "SET", key := "K", value := ["A"], conn := none } ∧
    ((freshRedis.Operation
        { command := "SET", key := "K", value := ["A"], conn := none } true).1).get "K"
      = ["A"] :=
  ⟨by decide, by decide,
   (C10_set_extra_tokens "SET K A B" "SET" "K" "A" "B" [] (by decide) (by decide)
      freshRedis true).1,
   (C10_set_extra_tokens "SET K A B" "SET" "K" "A" "B" [] (by decide) (by decide)
      freshRedis true).2⟩
